import Mathlib

/-!
Verification development for the runner-usage analytics tool
(`runner_usage_analyzer.py`).  The Python source is shallowly embedded:
pure helpers become Lean functions on `String` / `List Char`, the GitHub
HTTP boundary (`make_api_request`) becomes an oracle record of
`Except`-valued endpoint functions, and Python dictionaries holding job
rows become a `JobRecord` structure together with an association-list
view that mirrors `dict.get`.
-/

namespace RunnerAnalytics

/-! ### Python string primitives -/

/-- `str.lower()` on a character list (ASCII case mapping, which is what
the runner-label and filter strings use). -/
def pyLowerL (cs : List Char) : List Char := cs.map Char.toLower

/-- `str.lower()` on a string. -/
def pyLower (s : String) : String := String.mk (pyLowerL s.data)

/-- Does `needle` occur at the head of `hay`?  Building block for the
Python substring test `needle in hay`. -/
def startsWithL : List Char → List Char → Bool
  | [], _ => true
  | _ :: _, [] => false
  | a :: as, b :: bs => a = b && startsWithL as bs

/-- Python substring containment `needle in hay` on character lists. -/
def containsL (needle : List Char) : List Char → Bool
  | [] => startsWithL needle []
  | b :: bs => startsWithL needle (b :: bs) || containsL needle bs

/-- `" ".join(xs)` at the character-list level (`' '.join(labels)` in
`_categorize_runner` and `_get_cost_category`). -/
def joinSpaces : List (List Char) → List Char
  | [] => []
  | [l] => l
  | l :: ls => l ++ ' ' :: joinSpaces ls

/-- `str.title()`: the first alphabetic character of every run of
alphabetic characters is upcased, the rest are downcased; non-alphabetic
characters delimit the runs.  Used by `_group_results` as
`group_by.title()`. -/
def pyTitleGo : Bool → List Char → List Char
  | _, [] => []
  | prevAlpha, c :: cs =>
    (if c.isAlpha then (if prevAlpha then c.toLower else c.toUpper) else c)
      :: pyTitleGo c.isAlpha cs

/-- `str.title()` on a string. -/
def pyTitle (s : String) : String := String.mk (pyTitleGo false s.data)

/-- Python `f"{i:02d}"`: decimal rendering padded with zeros to width 2.
A negative value of magnitude below ten already occupies two characters
(sign plus digit), so it is not padded further. -/
def pyFmt02 (i : Int) : String :=
  if 0 ≤ i ∧ i < 10 then "0" ++ toString i else toString i

/-- Python `int(s)` restricted to an optional sign followed by decimal
digits (the only shapes fed to it by `_group_results`, which parses the
`"MM:SS"` strings the tool itself produced). -/
def pyInt? (s : String) : Option Int :=
  let digitsVal : List Char → Option Nat := fun ds =>
    if ds ≠ [] ∧ ds.all Char.isDigit then
      some (ds.foldl (fun acc c => acc * 10 + (c.toNat - 48)) 0)
    else none
  match s.data with
  | '-' :: ds => (digitsVal ds).map (fun n => -(n : Int))
  | '+' :: ds => (digitsVal ds).map (fun n => (n : Int))
  | ds => (digitsVal ds).map (fun n => (n : Int))

/-! ### Duration calculator (`_calculate_duration`)

The method first parses both endpoints with `datetime.fromisoformat`
(after `replace('Z', '+00:00')`), subtracts them, and then re-parses and
re-subtracts through `self._parse_iso_datetime`.  That helper is called
but not defined in the shipped source, so it is modelled from the spec
below; both parse phases are modelled by the single function
`pyParseIso`, which makes the first phase's computation of
`total_seconds` redundant exactly as it is in the source (lines 281-283
are overwritten by lines 289-291). -/

/-- A parsed timestamp: seconds on a linear scale (UTC-adjusted when an
offset was given), plus whether the value is timezone-aware.  Python
raises `TypeError` when subtracting a naive from an aware datetime,
which `_calculate_duration` catches. -/
structure PyDateTime where
  sec : Int
  aware : Bool
  deriving DecidableEq

/-- Decimal value of an ASCII digit. -/
def chDigit (c : Char) : Option Nat :=
  if c.isDigit then some (c.toNat - 48) else none

/-- Two-digit decimal field. -/
def num2 (a b : Char) : Option Nat := do
  pure ((← chDigit a) * 10 + (← chDigit b))

/-- Four-digit decimal field. -/
def num4 (a b c d : Char) : Option Nat := do
  pure (((← chDigit a) * 10 + (← chDigit b)) * 100 + ((← chDigit c) * 10 + (← chDigit d)))

/-- Gregorian leap-year rule. -/
def isLeap (y : Int) : Bool := y % 4 = 0 && (y % 100 ≠ 0 || y % 400 = 0)

/-- Length of a month. -/
def daysInMonth (y : Int) (m : Nat) : Nat :=
  match m with
  | 1 => 31 | 2 => if isLeap y then 29 else 28 | 3 => 31 | 4 => 30
  | 5 => 31 | 6 => 30 | 7 => 31 | 8 => 31 | 9 => 30 | 10 => 31
  | 11 => 30 | 12 => 31 | _ => 0

/-- Days since 1970-01-01 of a civil date (standard days-from-civil
algorithm, the same arithmetic `datetime.date.toordinal` realizes). -/
def daysFromCivil (y : Int) (m d : Nat) : Int :=
  let y2 : Int := if m ≤ 2 then y - 1 else y
  let era := y2.fdiv 400
  let yoe := y2 - era * 400
  let mp : Int := if (m : Int) > 2 then (m : Int) - 3 else (m : Int) + 9
  let doy := (153 * mp + 2).fdiv 5 + (d : Int) - 1
  let doe := yoe * 365 + yoe.fdiv 4 - yoe.fdiv 100 + doy
  era * 146097 + doe - 719468

/-- Modelled from the spec: the timestamp grammar accepted by the (absent
from the shipped source) `_parse_iso_datetime` helper and by the
`datetime.fromisoformat` phase, after `Z` normalization: a
timezone-qualified ISO-8601 form `YYYY-MM-DDTHH:MM:SS` with an optional
`+HH:MM` / `-HH:MM` offset, field ranges validated, whole-second
resolution. -/
def parseCore : List Char → Option PyDateTime
  | y1 :: y2 :: y3 :: y4 :: '-' :: m1 :: m2 :: '-' :: d1 :: d2 :: 'T' ::
      h1 :: h2 :: ':' :: n1 :: n2 :: ':' :: s1 :: s2 :: rest => do
    let y ← num4 y1 y2 y3 y4
    let mo ← num2 m1 m2
    let d ← num2 d1 d2
    let h ← num2 h1 h2
    let mi ← num2 n1 n2
    let se ← num2 s1 s2
    if 1 ≤ y ∧ 1 ≤ mo ∧ mo ≤ 12 ∧ 1 ≤ d ∧ d ≤ daysInMonth (y : Int) mo ∧
        h ≤ 23 ∧ mi ≤ 59 ∧ se ≤ 59 then
      let wall := daysFromCivil (y : Int) mo d * 86400 +
        (h : Int) * 3600 + (mi : Int) * 60 + (se : Int)
      match rest with
      | [] => some ⟨wall, false⟩
      | [sg, o1, o2, ':', o3, o4] => do
        let oh ← num2 o1 o2
        let om ← num2 o3 o4
        if (sg = '+' ∨ sg = '-') ∧ oh ≤ 23 ∧ om ≤ 59 then
          let off : Int := (oh : Int) * 3600 + (om : Int) * 60
          some ⟨wall - (if sg = '+' then off else -off), true⟩
        else none
      | _ => none
    else none
  | _ => none

/-- `s.replace('Z', '+00:00')` followed by the ISO parse above.  The
`replace` substitutes every `Z`; a non-trailing `Z` therefore yields an
unparsable string, just as it would for `fromisoformat`. -/
def pyParseIso (s : String) : Option PyDateTime :=
  parseCore ((s.data.map (fun ch =>
    if ch = 'Z' then ['+', '0', '0', ':', '0', '0'] else [ch])).flatten)

/-- `_calculate_duration` (source lines 262-296).  `job.get` yields
`none` for an absent timestamp; the Python guard
`if started_at and completed_at` also rejects empty strings.  Parse
failures raise `ValueError` and mixed naive/aware subtraction raises
`TypeError`, both caught by the `except` clause, producing `"unknown"`.
`minutes = total_seconds // 60` and `seconds = total_seconds % 60` are
Python floor division and floor modulus, hence `Int.fdiv` / `Int.emod`. -/
def calculateDuration (started_at completed_at : Option String) : String :=
  match started_at, completed_at with
  | some s, some c =>
    if s = "" then "unknown"
    else if c = "" then "unknown"
    else
      match pyParseIso s, pyParseIso c with
      | some t1, some t2 =>
        if t1.aware = t2.aware then
          let total_seconds := t2.sec - t1.sec
          pyFmt02 (total_seconds.fdiv 60) ++ ":" ++ pyFmt02 (total_seconds.emod 60)
        else "unknown"
      | _, _ => "unknown"
  | _, _ => "unknown"

/-! ### Record classifier (`_categorize_runner`, `_get_cost_category`) -/

/-- `' '.join(labels).lower()`, the string both classifiers test
substrings against. -/
def labelsLower (labels : List String) : List Char :=
  pyLowerL (joinSpaces (labels.map String.data))

/-- `_categorize_runner` (source lines 298-323): first match wins over
the lowercased whitespace-joined label string. -/
def categorizeRunner (labels : List String) : String :=
  let labels_str := labelsLower labels
  if containsL "self-hosted".data labels_str then "Self-hosted"
  else if (["ubuntu-latest", "windows-latest", "macos-latest"].any
      (fun gh_label => containsL gh_label.data labels_str)) then "GitHub-hosted"
  else if containsL "ubuntu".data labels_str then "Ubuntu"
  else if containsL "windows".data labels_str then "Windows"
  else if containsL "macos".data labels_str then "macOS"
  else if containsL "linux".data labels_str then "Linux"
  else "Unknown"

/-- `_get_cost_category` (source lines 325-344). -/
def getCostCategory (labels : List String) : String :=
  let labels_str := labelsLower labels
  if containsL "self-hosted".data labels_str then "Self-hosted (Custom Cost)"
  else if (["large", "xl", "xxl", "4-core", "8-core", "16-core"].any
      (fun size => containsL size.data labels_str)) then "Large Instance"
  else if (["ubuntu-latest", "windows-latest", "macos-latest"].any
      (fun gh_label => containsL gh_label.data labels_str)) then "Standard GitHub-hosted"
  else "Standard"

/-- The runner-type rules of the spec as an ordered table: each entry is
the set of trigger substrings and the resulting category. -/
def runnerRules : List (List String × String) :=
  [(["self-hosted"], "Self-hosted"),
   (["ubuntu-latest", "windows-latest", "macos-latest"], "GitHub-hosted"),
   (["ubuntu"], "Ubuntu"),
   (["windows"], "Windows"),
   (["macos"], "macOS"),
   (["linux"], "Linux")]

/-- The classifier as the spec words it: the category of the first rule
in the fixed order whose trigger substrings hit the case-insensitive
whitespace-joined label concatenation, `"Unknown"` when none does. -/
def classifyRunnerTypeSpec (labels : List String) : String :=
  match runnerRules.find?
      (fun rule => rule.1.any (fun n => containsL n.data (labelsLower labels))) with
  | some rule => rule.2
  | none => "Unknown"

/-! ### Job records

`analyze_runner_usage` builds one Python dict per retained job (source
lines 228-249).  `JobRecord` is that dict as a structure; `fields` lists
its key/value pairs in insertion order and `get` mirrors `dict.get`.
Values are strings or integers, hence `PyVal`. -/

/-- A Python dict value in a job row: a string or an integer. -/
inductive PyVal where
  | str (s : String)
  | int (z : Int)
  deriving DecidableEq

/-- Repository data consumed from the listing endpoint; `size`,
`language` and `visibility` are fetched with `.get` defaults in the
source, hence optional here. -/
structure RepoInfo where
  name : String
  default_branch : String
  size : Option Int
  language : Option String
  visibility : Option String
  deriving DecidableEq

/-- Workflow-run data: `run['id']` and `run['name']` are accessed
directly, `run.get('path', '')` with a default. -/
structure RunInfo where
  id : Int
  name : String
  path : Option String
  deriving DecidableEq

/-- Job data; every field the source reads through `.get` is optional. -/
structure JobInfo where
  name : String
  id : Option Int
  labels : Option (List String)
  status : Option String
  conclusion : Option String
  started_at : Option String
  completed_at : Option String
  html_url : Option String
  deriving DecidableEq

/-- One emitted job row (the dict of source lines 228-249). -/
structure JobRecord where
  org : String
  repo : String
  branch : String
  workflowFile : String
  workflowName : String
  runnerLabels : String
  runnerType : String
  costCategory : String
  jobName : String
  jobStatus : String
  runDate : String
  completedDate : String
  duration : String
  runId : Int
  jobId : PyVal
  conclusion : String
  htmlUrl : String
  repositorySize : Int
  repositoryLanguage : String
  repositoryVisibility : String
  deriving DecidableEq

/-- The dict view of a `JobRecord`: its keys in insertion order paired
with their values (`job.get('id', '')` defaults the job id to the empty
string, all other defaults are applied while building the record). -/
def JobRecord.fields (r : JobRecord) : List (String × PyVal) :=
  [("Org", .str r.org),
   ("Repo", .str r.repo),
   ("Branch", .str r.branch),
   ("Workflow File", .str r.workflowFile),
   ("Workflow Name", .str r.workflowName),
   ("Runner Labels", .str r.runnerLabels),
   ("Runner Type", .str r.runnerType),
   ("Cost Category", .str r.costCategory),
   ("Job Name", .str r.jobName),
   ("Job Status", .str r.jobStatus),
   ("Run Date", .str r.runDate),
   ("Completed Date", .str r.completedDate),
   ("Duration", .str r.duration),
   ("Run ID", .int r.runId),
   ("Job ID", r.jobId),
   ("Conclusion", .str r.conclusion),
   ("HTML URL", .str r.htmlUrl),
   ("Repository Size", .int r.repositorySize),
   ("Repository Language", .str r.repositoryLanguage),
   ("Repository Visibility", .str r.repositoryVisibility)]

/-- The key set of a job row dict. -/
def fieldNames : List String :=
  ["Org", "Repo", "Branch", "Workflow File", "Workflow Name",
   "Runner Labels", "Runner Type", "Cost Category", "Job Name",
   "Job Status", "Run Date", "Completed Date", "Duration", "Run ID",
   "Job ID", "Conclusion", "HTML URL", "Repository Size",
   "Repository Language", "Repository Visibility"]

/-- `result.get(key)`: `none` when the key is absent. -/
def JobRecord.get (r : JobRecord) (f : String) : Option PyVal :=
  (r.fields.find? (fun p => p.1 = f)).map Prod.snd

/-- Building the emitted row for one job (source lines 213-249):
`runner_label` is `', '.join(job_labels) if job_labels else 'unknown'`,
the classifiers and the duration calculator fill the derived fields, and
the `.get` defaults of the source are applied. -/
def mkRecord (org_name : String) (repo : RepoInfo) (run : RunInfo) (job : JobInfo) :
    JobRecord :=
  let job_labels := job.labels.getD []
  { org := org_name
    repo := repo.name
    branch := repo.default_branch
    workflowFile := (run.path.getD "")
    workflowName := run.name
    runnerLabels := if job_labels = [] then "unknown" else String.intercalate ", " job_labels
    runnerType := categorizeRunner job_labels
    costCategory := getCostCategory job_labels
    jobName := job.name
    jobStatus := job.status.getD "unknown"
    runDate := job.started_at.getD ""
    completedDate := job.completed_at.getD ""
    duration := calculateDuration job.started_at job.completed_at
    runId := run.id
    jobId := match job.id with
      | some i => .int i
      | none => .str ""
    conclusion := job.conclusion.getD "unknown"
    htmlUrl := job.html_url.getD ""
    repositorySize := repo.size.getD 0
    repositoryLanguage := repo.language.getD "unknown"
    repositoryVisibility := repo.visibility.getD "unknown" }

/-! ### Grouping engine (`_group_results`, source lines 346-420) -/

/-- Key extraction for one row (source lines 365-379): the source first
computes `result.get(group_by.title(), 'Unknown')` and then overrides it
through an `if group_by == 'label' / 'status' / 'workflow' / 'branch' /
'runner_type' / 'cost_category'` chain; the chain and the fallback are
disjoint, so the two-step assignment is written as one conditional. -/
def keyFor (group_by : String) (r : JobRecord) : PyVal :=
  if group_by = "label" then .str r.runnerLabels
  else if group_by = "status" then .str r.jobStatus
  else if group_by = "workflow" then .str r.workflowName
  else if group_by = "branch" then .str r.branch
  else if group_by = "runner_type" then .str r.runnerType
  else if group_by = "cost_category" then .str r.costCategory
  else (r.get (pyTitle group_by)).getD (.str "Unknown")

/-- `grouped[key].append(result)` on a `defaultdict(list)` whose
iteration order is insertion order of first-seen keys, rendered as an
association list. -/
def insertGrouped (acc : List (PyVal × List JobRecord)) (k : PyVal) (r : JobRecord) :
    List (PyVal × List JobRecord) :=
  match acc with
  | [] => [(k, [r])]
  | (k2, l) :: rest =>
    if k2 = k then (k2, l ++ [r]) :: rest else (k2, l) :: insertGrouped rest k r

/-- The grouping loop of source lines 362-380. -/
def groupPairs (results : List JobRecord) (group_by : String) :
    List (PyVal × List JobRecord) :=
  results.foldl (fun acc r => insertGrouped acc (keyFor group_by r) r) []

/-- One summary row of the grouped report. -/
structure GroupSummary where
  group : PyVal
  groupType : String
  totalJobs : Nat
  successfulJobs : Nat
  failedJobs : Nat
  successRate : String
  averageDuration : String
  sampleRepository : String
  deriving DecidableEq

/-- `f"{(successful/total*100):.1f}%"`: one decimal, rounding ties to
even as Python float formatting does; modelled by exact rational
rounding of `successful*1000/total` at the tenths digit. -/
def pctStr (successful total : Nat) : String :=
  let num := successful * 1000
  let q := num / total
  let r := num % total
  let n := if 2 * r < total then q
           else if total < 2 * r then q + 1
           else if q % 2 = 0 then q else q + 1
  toString (n / 10) ++ "." ++ toString (n % 10) ++ "%"

/-- Seconds encoded by one `"MM:SS"` duration cell: `duration_str.split(':')`
must give exactly two `int()`-parsable parts (`minutes, seconds =
map(int, ...)` raises otherwise, and the `except ValueError: pass`
drops the cell). -/
def durationSecs? (s : String) : Option Int :=
  match s.splitOn ":" with
  | [a, b] => do
    let m ← pyInt? a
    let sec ← pyInt? b
    pure (m * 60 + sec)
  | _ => none

/-- The parseable durations of a group (source lines 391-399): cells
that are not `"unknown"`, contain a colon, and parse as two integers. -/
def groupDurations (group_items : List JobRecord) : List Int :=
  group_items.filterMap (fun item =>
    if item.duration ≠ "unknown" ∧ containsL [':'] item.duration.data then
      durationSecs? item.duration
    else none)

/-- Average duration of a group (source lines 401-406): the float mean
of the parsed second counts, floor-divided and floor-reduced modulo 60
(`int(avg // 60)`, `int(avg % 60)`), or `"unknown"` when no cell
parsed.  The float arithmetic is modelled by exact rationals. -/
def avgDurationStr (secs : List Int) : String :=
  match secs with
  | [] => "unknown"
  | _ =>
    let avg : Rat := (secs.sum : Rat) / (secs.length : Rat)
    let m : Int := Rat.floor (avg / 60)
    let s : Int := Rat.floor (avg - (m : Rat) * 60)
    pyFmt02 m ++ ":" ++ pyFmt02 s

/-- One `GroupSummary` from a bucket (source lines 384-418). -/
def mkSummary (group_by : String) (p : PyVal × List JobRecord) : GroupSummary :=
  let group_items := p.2
  let total_jobs := group_items.length
  let successful_jobs := group_items.countP (fun item => item.jobStatus = "completed")
  let failed_jobs := group_items.countP (fun item => item.jobStatus = "failure")
  { group := p.1
    groupType := pyTitle group_by
    totalJobs := total_jobs
    successfulJobs := successful_jobs
    failedJobs := failed_jobs
    successRate := if 0 < total_jobs then pctStr successful_jobs total_jobs else "0%"
    averageDuration := avgDurationStr (groupDurations group_items)
    sampleRepository := match group_items with
      | [] => "Unknown"
      | r :: _ => r.repo }

/-- `_group_results`: on an empty input the source returns the input
itself (an empty list), otherwise the summaries in first-seen key
order. -/
def groupResults (results : List JobRecord) (group_by : String) : List GroupSummary :=
  if results = [] then []
  else (groupPairs results group_by).map (mkSummary group_by)

/-- The aggregation step of `analyze_runner_usage` (source lines
251-253): grouped summaries unless `group_by` is the sentinel
`"none"`, in which case the flat record list passes through. -/
def aggregateResults (results : List JobRecord) (group_by : String) :
    List JobRecord ⊕ List GroupSummary :=
  if group_by ≠ "none" then .inr (groupResults results group_by) else .inl results

/-! ### Usage collector (`get_repositories`, `get_workflow_runs`,
`get_jobs_for_run`, `analyze_runner_usage`)

`make_api_request` is the HTTP boundary: each endpoint either returns
decoded data or raises `GitHubAPIError`.  It is embedded as an oracle of
`Except`-valued functions; the query parameters the source folds into
the request (branch, `days_back` window, run id) are the oracle's
arguments. -/

/-- The GitHub API boundary. -/
structure Api where
  repoPage : Nat → Except String (List RepoInfo)
  runsFor : String → String → Int → Except String (List RunInfo)
  jobsFor : String → Int → Except String (List JobInfo)

/-- The pagination loop of `get_repositories` (source lines 87-102): it
stops on an empty page or once `page`, after the increment, exceeds 100;
an API error is not caught and propagates.  The loop body runs at most
100 times, so a structural fuel of 100 realizes it exactly. -/
def getReposGo (fetchPage : Nat → Except String (List RepoInfo)) :
    Nat → Nat → List RepoInfo → Except String (List RepoInfo)
  | 0, _, acc => .ok acc
  | fuel + 1, page, acc =>
    match fetchPage page with
    | .error e => .error e
    | .ok data =>
      if data = [] then .ok acc
      else if 100 < page + 1 then .ok (acc ++ data)
      else getReposGo fetchPage fuel (page + 1) (acc ++ data)

/-- `get_repositories` (source lines 76-105). -/
def getRepositories (api : Api) : Except String (List RepoInfo) :=
  getReposGo api.repoPage 100 1 []

/-- `get_workflow_runs` (source lines 107-137): an API failure is caught
and yields an empty run list. -/
def getWorkflowRuns (api : Api) (repo_name branch : String) (days_back : Int) :
    List RunInfo :=
  match api.runsFor repo_name branch days_back with
  | .ok d => d
  | .error _ => []

/-- `get_jobs_for_run` (source lines 139-157): an API failure is caught
and yields an empty job list. -/
def getJobsForRun (api : Api) (repo_name : String) (run_id : Int) : List JobInfo :=
  match api.jobsFor repo_name run_id with
  | .ok d => d
  | .error _ => []

/-- Whether one job passes the status filter and survives the label
filter (source lines 219-223): a truthy status filter must match the
job status case-insensitively, and when a target label is set it must
be a member of the label list. -/
def jobRetained (target_label : Option String) (status_filter : Option String)
    (job : JobInfo) : Bool :=
  let job_labels := job.labels.getD []
  let job_status := job.status.getD "unknown"
  let skippedByStatus : Bool :=
    match status_filter with
    | some sf => sf ≠ "" ∧ pyLower sf ≠ pyLower job_status
    | none => false
  if skippedByStatus then false
  else
    match target_label with
    | none => true
    | some t => t ∈ job_labels

/-- The record-accumulation loops of `analyze_runner_usage` (source
lines 197-249), abstracted over the two per-unit fetchers so that the
collection depends on the API only through them. -/
def collectRecords (repos : List RepoInfo)
    (runsOf : String → String → List RunInfo)
    (jobsOf : String → Int → List JobInfo)
    (org_name : String) (target_label status_filter : Option String) :
    List JobRecord :=
  repos.foldl (fun acc repo =>
    (runsOf repo.name repo.default_branch).foldl (fun acc run =>
      (jobsOf repo.name run.id).foldl (fun acc job =>
        if jobRetained target_label status_filter job then
          acc ++ [mkRecord org_name repo run job]
        else acc) acc) acc) []

/-- The repository filter of source lines 193-195: applied only when the
filter string is truthy, keeping repositories whose lowercased name
contains the lowercased filter. -/
def filterRepos (repo_filter : Option String) (repos : List RepoInfo) :
    List RepoInfo :=
  match repo_filter with
  | some f =>
    if f = "" then repos
    else repos.filter (fun repo => containsL (pyLowerL f.data) (pyLowerL repo.name.data))
  | none => repos

/-- `analyze_runner_usage` (source lines 159-260): enumerate
repositories (fatal on failure), filter them, collect the per-job rows,
and aggregate. -/
def analyzeRunnerUsage (api : Api) (org_name : String)
    (target_label : Option String) (days_back : Int) (group_by : String)
    (status_filter repo_filter : Option String) :
    Except String (List JobRecord ⊕ List GroupSummary) :=
  match getRepositories api with
  | .error e => .error e
  | .ok repos =>
    let repos := filterRepos repo_filter repos
    let results := collectRecords repos
      (fun n b => getWorkflowRuns api n b days_back)
      (fun n i => getJobsForRun api n i)
      org_name target_label status_filter
    .ok (aggregateResults results group_by)

/-! ### Fixtures and oracle instances used by the closed instantiations -/

/-- The inputs on which `_calculate_duration` reaches the subtraction:
both endpoints present and non-empty, both parseable, and of equal
timezone awareness. -/
def durationDefined (so co : Option String) : Prop :=
  ∃ s c t1 t2, so = some s ∧ co = some c ∧ pyParseIso s = some t1 ∧
    pyParseIso c = some t2 ∧ t1.aware = t2.aware

/-- All records stored across the buckets, in bucket order. -/
def bucketsFlat (acc : List (PyVal × List JobRecord)) : List JobRecord :=
  (acc.map (fun p => p.2)).flatten

/-- The bucket keys. -/
def keysOf (acc : List (PyVal × List JobRecord)) : List PyVal := acc.map Prod.fst

/-- Invariant of the grouping loop: buckets are non-empty and hold only
records whose extracted key is the bucket key. -/
def GoodAcc (G : String) (acc : List (PyVal × List JobRecord)) : Prop :=
  ∀ p ∈ acc, p.2 ≠ [] ∧ ∀ r ∈ p.2, keyFor G r = p.1

/-- Concrete repository fixture for closed instantiations. -/
def repo0 : RepoInfo :=
  { name := "tools-repo", default_branch := "main", size := some 10,
    language := some "Python", visibility := some "private" }

/-- Concrete workflow-run fixture. -/
def run0 : RunInfo := { id := 7, name := "CI", path := some ".github/workflows/ci.yml" }

/-- Concrete job fixture with no label list and no timestamps. -/
def job0 : JobInfo :=
  { name := "build", id := some 11, labels := none, status := none,
    conclusion := none, started_at := none, completed_at := none, html_url := none }

/-- Concrete emitted record fixture. -/
def r0 : JobRecord := mkRecord "myorg" repo0 run0 job0

/-- Concrete API for the closed instantiations: one repository page with
one repository, runs failing only for that repository. -/
def apiRunsFail : Api :=
  { repoPage := fun p => if p = 1 then .ok [repo0] else .ok []
    runsFor := fun n _ _ => if n = "tools-repo" then .error "net" else .ok []
    jobsFor := fun _ _ => .ok [] }

/-- Same API with the failing runs listing replaced by an empty page. -/
def apiRunsEmpty : Api :=
  { repoPage := fun p => if p = 1 then .ok [repo0] else .ok []
    runsFor := fun n _ _ => if n = "tools-repo" then .ok [] else .ok []
    jobsFor := fun _ _ => .ok [] }

/-- API whose job listing fails for run 7 of the repository. -/
def apiJobsFail : Api :=
  { repoPage := fun p => if p = 1 then .ok [repo0] else .ok []
    runsFor := fun _ _ _ => .ok [run0]
    jobsFor := fun n i => if n = "tools-repo" ∧ i = 7 then .error "net" else .ok [] }

/-- Same API with the failing job listing replaced by an empty page. -/
def apiJobsEmpty : Api :=
  { repoPage := fun p => if p = 1 then .ok [repo0] else .ok []
    runsFor := fun _ _ _ => .ok [run0]
    jobsFor := fun n i => if n = "tools-repo" ∧ i = 7 then .ok [] else .ok [] }

/-- API whose repository enumeration fails on the first page. -/
def apiReposFail : Api :=
  { repoPage := fun _ => .error "boom"
    runsFor := fun _ _ _ => .ok []
    jobsFor := fun _ _ => .ok [] }

/-! ### Supporting lemmas -/

/-- A string that parses as a timestamp is not empty. -/
theorem pyParseIso_ne_empty {s : String} {t : PyDateTime}
    (h : pyParseIso s = some t) : s ≠ "" := by
  intro hs
  subst hs
  rw [show pyParseIso "" = none from rfl] at h
  cases h

/-- On the defined inputs, `_calculate_duration` is the floor-divided
minute count and floor modulus second count of the elapsed seconds. -/
theorem calculateDuration_eq_fmt {s c : String} {t1 t2 : PyDateTime}
    (hs : pyParseIso s = some t1) (hc : pyParseIso c = some t2)
    (haw : t1.aware = t2.aware) :
    calculateDuration (some s) (some c) =
      pyFmt02 ((t2.sec - t1.sec).fdiv 60) ++ ":" ++ pyFmt02 ((t2.sec - t1.sec).emod 60) := by
  have hs0 : s ≠ "" := pyParseIso_ne_empty hs
  have hc0 : c ≠ "" := pyParseIso_ne_empty hc
  simp only [calculateDuration]
  rw [if_neg hs0, if_neg hc0, hs, hc]
  simp [haw]

/-- A string assembled around a colon is never the sentinel. -/
theorem colon_append_ne_unknown (a b : String) : a ++ ":" ++ b ≠ "unknown" := by
  intro h
  have hd := congrArg String.data h
  have hmem : ':' ∈ (a ++ ":" ++ b).data := by
    simp [String.data_append]
  rw [hd] at hmem
  exact absurd hmem (by decide)

theorem fdiv_natCast (m k : Nat) :
    Int.fdiv (m : Int) (k : Int) = ((m / k : Nat) : Int) := by
  cases m with
  | zero => show Int.fdiv (Int.ofNat 0) _ = _; simp [Int.fdiv]
  | succ m => rfl

theorem emod_natCast (m k : Nat) :
    Int.emod (m : Int) (k : Int) = ((m % k : Nat) : Int) := rfl

theorem pyFmt02_natCast (j : Nat) :
    pyFmt02 (j : Int) = if j < 10 then "0" ++ toString j else toString j := by
  have hts : toString ((j : Int)) = toString j := rfl
  by_cases h : j < 10
  · rw [pyFmt02, if_pos ⟨Int.natCast_nonneg j, by exact_mod_cast h⟩, hts, if_pos h]
  · rw [pyFmt02, if_neg, hts, if_neg h]
    intro hcon
    exact h (by exact_mod_cast hcon.2)

/-! ### Claims about the duration calculator -/

/-- C1, counterexample: with both timestamps parseable and
`completed < started`, `_calculate_duration` does not return the
sentinel `"unknown"`; it returns the Python floor-division rendering
`"-1:59"` of the negative elapsed second count. -/
theorem duration_claim_c1_counterexample :
    calculateDuration (some "2024-01-01T10:00:01Z") (some "2024-01-01T10:00:00Z") = "-1:59" ∧
    calculateDuration (some "2024-01-01T10:00:01Z") (some "2024-01-01T10:00:00Z") ≠ "unknown" := by
  constructor
  · decide
  · decide

/-- C1, amended: the duration calculator is total and soft-failing on
parse problems — a missing or empty endpoint, an unparsable timestamp,
or a naive/aware mix yields `"unknown"` — but for parseable pairs with
`completed < started` it returns the signed `MM:SS` rendering of the
negative elapsed time (minutes floor-divided, seconds as the
non-negative floor modulus), not `"unknown"`. -/
theorem duration_soft_fail :
    (∀ so co : Option String, ¬ durationDefined so co →
      calculateDuration so co = "unknown") ∧
    (∀ (s c : String) (t1 t2 : PyDateTime), pyParseIso s = some t1 →
      pyParseIso c = some t2 → t1.aware = t2.aware → t2.sec < t1.sec →
      calculateDuration (some s) (some c) =
        pyFmt02 ((t2.sec - t1.sec).fdiv 60) ++ ":" ++ pyFmt02 ((t2.sec - t1.sec).emod 60) ∧
      calculateDuration (some s) (some c) ≠ "unknown") := by
  constructor
  · intro so co h
    match so, co with
    | none, none => rfl
    | none, some c => rfl
    | some s, none => rfl
    | some s, some c =>
      simp only [calculateDuration]
      by_cases hs0 : s = ""
      · rw [if_pos hs0]
      · rw [if_neg hs0]
        by_cases hc0 : c = ""
        · rw [if_pos hc0]
        · rw [if_neg hc0]
          cases hp1 : pyParseIso s with
          | none => rfl
          | some t1 =>
            cases hp2 : pyParseIso c with
            | none => rfl
            | some t2 =>
              by_cases haw : t1.aware = t2.aware
              · exact absurd ⟨s, c, t1, t2, rfl, rfl, hp1, hp2, haw⟩ h
              · simp [haw]
  · intro s c t1 t2 hs hc haw _
    refine ⟨calculateDuration_eq_fmt hs hc haw, ?_⟩
    rw [calculateDuration_eq_fmt hs hc haw]
    exact colon_append_ne_unknown _ _

/-- Closed instantiation of the amended C1 theorem: an absent completion
time yields `"unknown"`, and the negative example yields the negative
rendering. -/
theorem duration_soft_fail_witness :
    calculateDuration (some "2024-01-01T10:00:00Z") none = "unknown" ∧
    calculateDuration (some "2024-01-01T10:00:01Z") (some "2024-01-01T10:00:00Z") ≠ "unknown" :=
  ⟨duration_soft_fail.1 (some "2024-01-01T10:00:00Z") none
      (by rintro ⟨s, c, t1, t2, _, hco, -⟩; cases hco),
   (duration_soft_fail.2 "2024-01-01T10:00:01Z" "2024-01-01T10:00:00Z"
      ⟨1704103201, true⟩ ⟨1704103200, true⟩ (by decide) (by decide) rfl (by decide)).2⟩

/-- C2: on parseable timestamps of equal awareness with
`completed ≥ started`, `_calculate_duration` renders the elapsed whole
seconds as `MM:SS`, both fields zero-padded to two digits and the
minutes unbounded; in particular the 10:00:00Z / 10:02:38Z pair yields
`"02:38"`. -/
theorem duration_mmss :
    (∀ (s c : String) (t1 t2 : PyDateTime), pyParseIso s = some t1 →
      pyParseIso c = some t2 → t1.aware = t2.aware → t1.sec ≤ t2.sec →
      calculateDuration (some s) (some c) =
        (if (t2.sec - t1.sec).toNat / 60 < 10
          then "0" ++ toString ((t2.sec - t1.sec).toNat / 60)
          else toString ((t2.sec - t1.sec).toNat / 60)) ++ ":" ++
        (if (t2.sec - t1.sec).toNat % 60 < 10
          then "0" ++ toString ((t2.sec - t1.sec).toNat % 60)
          else toString ((t2.sec - t1.sec).toNat % 60))) ∧
    calculateDuration (some "2024-01-01T10:00:00Z") (some "2024-01-01T10:02:38Z") = "02:38" := by
  constructor
  · intro s c t1 t2 hs hc haw hle
    rw [calculateDuration_eq_fmt hs hc haw]
    obtain ⟨n, hn⟩ := Int.eq_ofNat_of_zero_le (by omega : (0 : Int) ≤ t2.sec - t1.sec)
    rw [hn]
    rw [show (60 : Int) = ((60 : Nat) : Int) from rfl, fdiv_natCast, emod_natCast,
      pyFmt02_natCast, pyFmt02_natCast, Int.toNat_natCast]
  · decide

/-- Closed instantiation of the C2 theorem at the 158-second example. -/
theorem duration_mmss_witness :
    calculateDuration (some "2024-01-01T10:00:00Z") (some "2024-01-01T10:02:38Z") =
      (if ((1704103358 - 1704103200 : Int)).toNat / 60 < 10
        then "0" ++ toString (((1704103358 - 1704103200 : Int)).toNat / 60)
        else toString (((1704103358 - 1704103200 : Int)).toNat / 60)) ++ ":" ++
      (if ((1704103358 - 1704103200 : Int)).toNat % 60 < 10
        then "0" ++ toString (((1704103358 - 1704103200 : Int)).toNat % 60)
        else toString (((1704103358 - 1704103200 : Int)).toNat % 60)) :=
  duration_mmss.1 "2024-01-01T10:00:00Z" "2024-01-01T10:02:38Z"
    ⟨1704103200, true⟩ ⟨1704103358, true⟩ (by decide) (by decide) rfl (by decide)

/-! ### Claims about aggregation mode and record construction -/

/-- C3: with the sentinel `group_by = "none"`, the aggregation step is
the identity transform on the collected record sequence. -/
theorem aggregate_none_identity (results : List JobRecord) :
    aggregateResults results "none" = Sum.inl results := by
  simp [aggregateResults]

/-- C9: a job with an empty label list is emitted with runner-labels
sentinel `"unknown"`, runner type `"Unknown"`, and cost category
`"Standard"`. -/
theorem empty_labels_record (org_name : String) (repo : RepoInfo) (run : RunInfo)
    (job : JobInfo) (h : job.labels.getD [] = []) :
    (mkRecord org_name repo run job).runnerLabels = "unknown" ∧
    (mkRecord org_name repo run job).runnerType = "Unknown" ∧
    (mkRecord org_name repo run job).costCategory = "Standard" := by
  refine ⟨?_, ?_, ?_⟩ <;> simp [mkRecord, h] <;> decide

/-! ### Claims about the classifier -/

/-- A space-free needle crosses no join boundary: matching it at the
head of `a ++ ' ' :: m` is the same as matching it at the head of `a`. -/
theorem startsWithL_append_space {n : List Char} (hn : ' ' ∉ n) :
    ∀ a m : List Char, startsWithL n (a ++ ' ' :: m) = startsWithL n a := by
  induction n with
  | nil => intro a m; rfl
  | cons c n' ih =>
    intro a m
    cases a with
    | nil =>
      have hc : c ≠ ' ' := fun h => hn (h ▸ List.mem_cons_self _ _)
      simp [startsWithL, hc]
    | cons x a' =>
      simp only [List.cons_append, startsWithL, List.append_eq]
      rw [ih (fun h => hn (List.mem_cons_of_mem _ h))]

/-- Substring search for a space-free non-empty needle distributes over
a single-space join point. -/
theorem containsL_append_space {n : List Char} (hn : ' ' ∉ n) (hne : n ≠ []) :
    ∀ a m : List Char, containsL n (a ++ ' ' :: m) = (containsL n a || containsL n m) := by
  intro a m
  induction a with
  | nil =>
    cases n with
    | nil => exact absurd rfl hne
    | cons c n' =>
      have hc : c ≠ ' ' := fun h => hn (h ▸ List.mem_cons_self _ _)
      simp [containsL, startsWithL, hc]
  | cons x a' ih =>
    simp only [List.cons_append, containsL, List.append_eq]
    rw [ih, ← List.cons_append, startsWithL_append_space hn, Bool.or_assoc]

/-- Searching a space-free needle in the space-joined concatenation is
searching it in any one part. -/
theorem containsL_joinSpaces {n : List Char} (hn : ' ' ∉ n) (hne : n ≠ []) :
    ∀ L : List (List Char), containsL n (joinSpaces L) = L.any (fun l => containsL n l) := by
  intro L
  induction L with
  | nil =>
    cases n with
    | nil => exact absurd rfl hne
    | cons c n' => rfl
  | cons a rest ih =>
    cases rest with
    | nil => simp [joinSpaces]
    | cons b rest' =>
      rw [show joinSpaces (a :: b :: rest') = a ++ ' ' :: joinSpaces (b :: rest') from rfl,
        containsL_append_space hn hne, ih]
      simp [List.any_cons]

/-- Lowercasing commutes with the space join. -/
theorem pyLowerL_joinSpaces :
    ∀ L : List (List Char), pyLowerL (joinSpaces L) = joinSpaces (L.map pyLowerL) := by
  intro L
  induction L with
  | nil => rfl
  | cons a rest ih =>
    cases rest with
    | nil => rfl
    | cons b rest' =>
      show pyLowerL (a ++ ' ' :: joinSpaces (b :: rest')) = _
      rw [List.map_cons, List.map_cons,
        show joinSpaces (pyLowerL a :: pyLowerL b :: List.map pyLowerL rest') =
          pyLowerL a ++ ' ' :: joinSpaces (pyLowerL b :: List.map pyLowerL rest') from rfl,
        ← List.map_cons pyLowerL b rest', ← ih]
      simp [pyLowerL, List.map_append, show Char.toLower ' ' = ' ' from rfl]

/-- The label-string search reduces to a search within some label, so it
only depends on label membership. -/
theorem any_map_comp (f : String → List Char) (p : List Char → Bool) (L : List String) :
    (L.map f).any p = L.any (fun s => p (f s)) := by
  induction L with
  | nil => rfl
  | cons a rest ih => simp [List.any_cons, ih]

theorem containsL_labelsLower {n : List Char} (hn : ' ' ∉ n) (hne : n ≠ []) (L : List String) :
    containsL n (labelsLower L) = L.any (fun s => containsL n (pyLowerL s.data)) := by
  rw [labelsLower, pyLowerL_joinSpaces, containsL_joinSpaces hn hne, List.map_map,
    any_map_comp (pyLowerL ∘ String.data) (fun l => containsL n l)]
  rfl

/-- `List.any` is invariant under permutation. -/
theorem any_of_perm {L L' : List String} (hp : L.Perm L') (p : String → Bool) :
    L.any p = L'.any p := by
  cases h1 : L.any p <;> cases h2 : L'.any p <;> try rfl
  · obtain ⟨x, hx, hpx⟩ := List.any_eq_true.mp h2
    have hcon : L.any p = true := List.any_eq_true.mpr ⟨x, hp.mem_iff.mpr hx, hpx⟩
    rw [h1] at hcon
    exact hcon
  · obtain ⟨x, hx, hpx⟩ := List.any_eq_true.mp h1
    have hcon : L'.any p = true := List.any_eq_true.mpr ⟨x, hp.mem_iff.mp hx, hpx⟩
    rw [h2] at hcon
    exact hcon.symm

/-- Each classifier condition is invariant under permuting the labels. -/
theorem containsL_labelsLower_perm {n : List Char} (hn : ' ' ∉ n) (hne : n ≠ [])
    {L L' : List String} (hp : L.Perm L') :
    containsL n (labelsLower L) = containsL n (labelsLower L') := by
  rw [containsL_labelsLower hn hne, containsL_labelsLower hn hne, any_of_perm hp]

/-- C5: `_categorize_runner` agrees with the ordered rule table of the
spec — the first rule in the fixed order whose trigger substring occurs
in the case-insensitive whitespace-joined label concatenation decides
the category, `"Unknown"` when none fires. -/
theorem classifier_matches_spec (labels : List String) :
    categorizeRunner labels = classifyRunnerTypeSpec labels := by
  cases h1 : containsL "self-hosted".data (labelsLower labels) <;>
    cases h2 : containsL "ubuntu-latest".data (labelsLower labels) <;>
    cases h3 : containsL "windows-latest".data (labelsLower labels) <;>
    cases h4 : containsL "macos-latest".data (labelsLower labels) <;>
    cases h5 : containsL "ubuntu".data (labelsLower labels) <;>
    cases h6 : containsL "windows".data (labelsLower labels) <;>
    cases h7 : containsL "macos".data (labelsLower labels) <;>
    cases h8 : containsL "linux".data (labelsLower labels) <;>
    simp [categorizeRunner, classifyRunnerTypeSpec, runnerRules, List.find?,
      h1, h2, h3, h4, h5, h6, h7, h8]

/-- C6: the classifier is total — the empty label list maps to
`"Unknown"`, every label list maps to exactly one of the seven
categories — and the category does not depend on the order of the
labels. -/
theorem classifier_total_and_order_free :
    categorizeRunner [] = "Unknown" ∧
    (∀ labels : List String, categorizeRunner labels ∈
      (["Self-hosted", "GitHub-hosted", "Ubuntu", "Windows", "macOS", "Linux",
        "Unknown"] : List String)) ∧
    (∀ L L' : List String, L.Perm L' → categorizeRunner L = categorizeRunner L') := by
  refine ⟨rfl, ?_, ?_⟩
  · intro labels
    simp only [categorizeRunner]
    split_ifs <;> simp
  · intro L L' hp
    have e : ∀ n : List Char, ' ' ∉ n → n ≠ [] →
        containsL n (labelsLower L) = containsL n (labelsLower L') :=
      fun n h1 h2 => containsL_labelsLower_perm h1 h2 hp
    simp only [categorizeRunner, List.any_cons, List.any_nil, Bool.or_false]
    rw [e "self-hosted".data (by decide) (by decide),
      e "ubuntu-latest".data (by decide) (by decide),
      e "windows-latest".data (by decide) (by decide),
      e "macos-latest".data (by decide) (by decide),
      e "ubuntu".data (by decide) (by decide),
      e "windows".data (by decide) (by decide),
      e "macos".data (by decide) (by decide),
      e "linux".data (by decide) (by decide)]

/-- Closed instantiation of the order-independence theorem: swapping the
two labels of a self-hosted GPU runner keeps the category. -/
theorem classifier_order_free_witness :
    categorizeRunner ["gpu", "self-hosted"] = categorizeRunner ["self-hosted", "gpu"] :=
  classifier_total_and_order_free.2.2 ["gpu", "self-hosted"] ["self-hosted", "gpu"]
    (List.Perm.swap "self-hosted" "gpu" [])

/-! ### Claims about the grouping engine -/

/-- Inserting a record adds exactly that record to the stored contents,
up to bucket placement. -/
theorem bucketsFlat_insertGrouped (acc : List (PyVal × List JobRecord))
    (k : PyVal) (r : JobRecord) :
    (bucketsFlat (insertGrouped acc k r)).Perm (bucketsFlat acc ++ [r]) := by
  induction acc with
  | nil => simp [bucketsFlat, insertGrouped]
  | cons p rest ih =>
    obtain ⟨k2, l⟩ := p
    by_cases h : k2 = k
    · simp only [insertGrouped, if_pos h, bucketsFlat, List.map_cons, List.flatten_cons]
      rw [List.append_assoc, List.append_assoc]
      exact List.Perm.append_left l List.perm_append_comm
    · simp only [insertGrouped, if_neg h, bucketsFlat, List.map_cons, List.flatten_cons]
      rw [List.append_assoc]
      exact List.Perm.append_left l ih

/-- The grouping loop stores exactly the input records. -/
theorem bucketsFlat_foldl (G : String) :
    ∀ (R : List JobRecord) (acc : List (PyVal × List JobRecord)),
      (bucketsFlat (R.foldl (fun acc r => insertGrouped acc (keyFor G r) r) acc)).Perm
        (bucketsFlat acc ++ R) := by
  intro R
  induction R with
  | nil => intro acc; simp
  | cons r rs ih =>
    intro acc
    refine ((ih (insertGrouped acc (keyFor G r) r)).trans ?_)
    refine (List.Perm.append_right rs (bucketsFlat_insertGrouped acc (keyFor G r) r)).trans ?_
    rw [List.append_assoc]
    rfl

/-- The buckets of `groupPairs` hold a permutation of the input. -/
theorem bucketsFlat_groupPairs (R : List JobRecord) (G : String) :
    (bucketsFlat (groupPairs R G)).Perm R := by
  have h := bucketsFlat_foldl G R []
  simpa [bucketsFlat] using h

theorem keysOf_insert_mem :
    ∀ (acc : List (PyVal × List JobRecord)) (k : PyVal) (r : JobRecord),
      k ∈ keysOf acc → keysOf (insertGrouped acc k r) = keysOf acc := by
  intro acc
  induction acc with
  | nil => intro k r h; cases h
  | cons p rest ih =>
    obtain ⟨k2, l⟩ := p
    intro k r h
    by_cases hk : k2 = k
    · simp [insertGrouped, hk, keysOf]
    · have hmem : k ∈ keysOf rest := by
        rcases List.mem_cons.mp h with h1 | h1
        · exact absurd h1.symm hk
        · exact h1
      simp only [insertGrouped, if_neg hk, keysOf, List.map_cons]
      show k2 :: keysOf (insertGrouped rest k r) = k2 :: keysOf rest
      rw [ih k r hmem]

theorem keysOf_insert_not_mem {acc : List (PyVal × List JobRecord)} {k : PyVal}
    (r : JobRecord) (h : k ∉ keysOf acc) :
    keysOf (insertGrouped acc k r) = keysOf acc ++ [k] := by
  induction acc with
  | nil => rfl
  | cons p rest ih =>
    obtain ⟨k2, l⟩ := p
    have hk : k2 ≠ k := fun he => h (by simp [keysOf, he])
    have hrest : k ∉ keysOf rest := fun hm => h (by simp [keysOf] at hm ⊢; right; exact hm)
    simp only [insertGrouped, if_neg hk, keysOf, List.map_cons, List.cons_append]
    simp only [keysOf] at ih
    rw [ih hrest]

theorem nodup_keys_insert {acc : List (PyVal × List JobRecord)} {k : PyVal}
    (r : JobRecord) (h : (keysOf acc).Nodup) :
    (keysOf (insertGrouped acc k r)).Nodup := by
  by_cases hm : k ∈ keysOf acc
  · rw [keysOf_insert_mem _ _ r hm]; exact h
  · rw [keysOf_insert_not_mem r hm]
    simp [List.nodup_append, h, hm]

/-- The grouping loop produces distinct bucket keys. -/
theorem nodup_keys_groupPairs (R : List JobRecord) (G : String) :
    (keysOf (groupPairs R G)).Nodup := by
  have aux : ∀ (rs : List JobRecord) (acc : List (PyVal × List JobRecord)),
      (keysOf acc).Nodup →
      (keysOf (rs.foldl (fun acc r => insertGrouped acc (keyFor G r) r) acc)).Nodup := by
    intro rs
    induction rs with
    | nil => intro acc h; exact h
    | cons r rs' ih => intro acc h; exact ih _ (nodup_keys_insert r h)
  exact aux R [] (by simp [keysOf])

theorem goodAcc_insert {G : String} {acc : List (PyVal × List JobRecord)} {k : PyVal}
    {r : JobRecord} (h : GoodAcc G acc) (hk : keyFor G r = k) :
    GoodAcc G (insertGrouped acc k r) := by
  induction acc with
  | nil =>
    intro p hp
    rw [insertGrouped] at hp
    rcases List.mem_singleton.mp hp with rfl
    exact ⟨List.cons_ne_nil _ _, fun r' hr' => by
      rcases List.mem_singleton.mp hr' with rfl; exact hk⟩
  | cons q rest ih =>
    obtain ⟨k2, l⟩ := q
    by_cases he : k2 = k
    · intro p hp
      simp only [insertGrouped, if_pos he] at hp
      rcases List.mem_cons.mp hp with rfl | hp2
      · refine ⟨by simp, fun r' hr' => ?_⟩
        rcases List.mem_append.mp hr' with h1 | h1
        · exact (h (k2, l) (List.mem_cons_self _ _)).2 r' h1
        · rcases List.mem_singleton.mp h1 with rfl
          rw [hk, he]
      · exact h p (List.mem_cons_of_mem _ hp2)
    · intro p hp
      simp only [insertGrouped, if_neg he] at hp
      rcases List.mem_cons.mp hp with rfl | hp2
      · exact h (k2, l) (List.mem_cons_self _ _)
      · exact ih (fun q hq => h q (List.mem_cons_of_mem _ hq)) p hp2

/-- The grouping loop satisfies the bucket invariant. -/
theorem goodAcc_groupPairs (R : List JobRecord) (G : String) :
    GoodAcc G (groupPairs R G) := by
  have aux : ∀ (rs : List JobRecord) (acc : List (PyVal × List JobRecord)),
      GoodAcc G acc →
      GoodAcc G (rs.foldl (fun acc r => insertGrouped acc (keyFor G r) r) acc) := by
    intro rs
    induction rs with
    | nil => intro acc h; exact h
    | cons r rs' ih => intro acc h; exact ih _ (goodAcc_insert h rfl)
  exact aux R [] (fun p hp => absurd hp (List.not_mem_nil p))

/-- C4: grouping a non-empty record sequence is a partition — the bucket
contents are a permutation of the input (so every record lands in
exactly one bucket), the bucket keys are pairwise distinct and each
bucket holds exactly the records bearing its key, the `Total Jobs`
counts of the produced summaries sum to the input length, and no
summary row has a zero count. -/
theorem grouping_partitions (R : List JobRecord) (G : String) (hR : R ≠ []) :
    ((groupResults R G).map GroupSummary.totalJobs).sum = R.length ∧
    (∀ s ∈ groupResults R G, 0 < s.totalJobs) ∧
    (bucketsFlat (groupPairs R G)).Perm R ∧
    (keysOf (groupPairs R G)).Nodup ∧
    (∀ p ∈ groupPairs R G, p.2 ≠ [] ∧ ∀ r ∈ p.2, keyFor G r = p.1) := by
  refine ⟨?_, ?_, bucketsFlat_groupPairs R G, nodup_keys_groupPairs R G,
    goodAcc_groupPairs R G⟩
  · have hlen : (bucketsFlat (groupPairs R G)).length = R.length :=
      (bucketsFlat_groupPairs R G).length_eq
    rw [bucketsFlat, List.length_flatten, List.map_map] at hlen
    rw [groupResults, if_neg hR, List.map_map]
    exact hlen
  · intro s hs
    rw [groupResults, if_neg hR] at hs
    obtain ⟨p, hp, rfl⟩ := List.mem_map.mp hs
    have hne := (goodAcc_groupPairs R G p hp).1
    have : 0 < p.2.length := List.length_pos.mpr hne
    simpa [mkSummary] using this

/-- Closed instantiation of the partition theorem on a one-record input
grouped by repository. -/
theorem grouping_partitions_witness :
    ((groupResults [r0] "repo").map GroupSummary.totalJobs).sum = [r0].length ∧
    (∀ s ∈ groupResults [r0] "repo", 0 < s.totalJobs) ∧
    (bucketsFlat (groupPairs [r0] "repo")).Perm [r0] ∧
    (keysOf (groupPairs [r0] "repo")).Nodup ∧
    (∀ p ∈ groupPairs [r0] "repo", p.2 ≠ [] ∧ ∀ r ∈ p.2, keyFor "repo" r = p.1) :=
  grouping_partitions [r0] "repo" (List.cons_ne_nil _ _)

/-- In a list, counting two mutually exclusive predicates never exceeds
the length. -/
theorem countP_disjoint_le {α : Type} (p q : α → Bool)
    (h : ∀ x, p x = true → q x = true → False) :
    ∀ l : List α, l.countP p + l.countP q ≤ l.length := by
  intro l
  induction l with
  | nil => simp
  | cons a t ih =>
    rw [List.countP_cons, List.countP_cons, List.length_cons]
    cases hp : p a <;> cases hq : q a
    · simp [hp, hq]; omega
    · simp [hp, hq]; omega
    · simp [hp, hq]; omega
    · exact (h a hp hq).elim

/-- C10: in every produced `GroupSummary`, the successful and failed
counts (themselves natural numbers, hence non-negative) sum to at most
the total count, because `"completed"` and `"failure"` never hold of
the same record. -/
theorem summary_counts_bounded (R : List JobRecord) (G : String) (s : GroupSummary)
    (hs : s ∈ groupResults R G) :
    s.successfulJobs + s.failedJobs ≤ s.totalJobs := by
  by_cases hR : R = []
  · subst hR
    rw [groupResults, if_pos rfl] at hs
    cases hs
  · rw [groupResults, if_neg hR] at hs
    obtain ⟨p, hp, rfl⟩ := List.mem_map.mp hs
    show p.2.countP _ + p.2.countP _ ≤ p.2.length
    exact countP_disjoint_le _ _
      (fun x h1 h2 => by
        have e1 : x.jobStatus = "completed" := of_decide_eq_true h1
        have e2 : x.jobStatus = "failure" := of_decide_eq_true h2
        rw [e1] at e2
        exact absurd e2 (by decide)) p.2

/-- Closed instantiation of the count bound on a one-record grouping. -/
theorem summary_counts_bounded_witness :
    (mkSummary "repo" (PyVal.str "tools-repo", [r0])).successfulJobs +
      (mkSummary "repo" (PyVal.str "tools-repo", [r0])).failedJobs ≤
      (mkSummary "repo" (PyVal.str "tools-repo", [r0])).totalJobs :=
  summary_counts_bounded [r0] "repo" _ (by decide)

/-! ### Claims about the group-by fallback -/

/-- C8, counterexample: `"org"` is outside the recognized group-by set,
yet grouping by it does not put the record in an `"Unknown"` bucket —
`"org".title()` is `"Org"`, a real row key, so the record's
organization value becomes the group key. -/
theorem groupby_unrecognized_counterexample :
    ("org" ∉ (["repo", "label", "status", "workflow", "branch", "runner_type",
      "cost_category"] : List String)) ∧
    keyFor "org" r0 = PyVal.str "myorg" ∧
    keyFor "org" r0 ≠ PyVal.str "Unknown" ∧
    groupPairs [r0] "org" = [(PyVal.str "myorg", [r0])] := by
  refine ⟨by decide, by decide, by decide, by decide⟩

theorem fields_keys (r : JobRecord) : r.fields.map Prod.fst = fieldNames := rfl

/-- Looking up a key that is not a row key yields `None`. -/
theorem get_eq_none (r : JobRecord) (f : String) (hf : f ∉ fieldNames) :
    r.get f = none := by
  have hfind : r.fields.find? (fun p => p.1 = f) = none := by
    rw [List.find?_eq_none]
    intro x hx hdec
    have hx1 : x.1 ∈ fieldNames := by
      rw [← fields_keys r]
      exact List.mem_map_of_mem Prod.fst hx
    exact hf (of_decide_eq_true hdec ▸ hx1)
  show (r.fields.find? (fun p => p.1 = f)).map Prod.snd = none
  rw [hfind]
  rfl

/-- A group-by name outside the override chain whose title-cased form is
not a row key extracts `"Unknown"` for every record. -/
theorem keyFor_unknown (G : String)
    (h6 : G ∉ (["label", "status", "workflow", "branch", "runner_type",
      "cost_category"] : List String))
    (hf : pyTitle G ∉ fieldNames) (r : JobRecord) :
    keyFor G r = PyVal.str "Unknown" := by
  have h1 : G ≠ "label" := fun e => h6 (by rw [e]; decide)
  have h2 : G ≠ "status" := fun e => h6 (by rw [e]; decide)
  have h3 : G ≠ "workflow" := fun e => h6 (by rw [e]; decide)
  have h4 : G ≠ "branch" := fun e => h6 (by rw [e]; decide)
  have h5 : G ≠ "runner_type" := fun e => h6 (by rw [e]; decide)
  have hc : G ≠ "cost_category" := fun e => h6 (by rw [e]; decide)
  simp only [keyFor, if_neg h1, if_neg h2, if_neg h3, if_neg h4, if_neg h5, if_neg hc]
  rw [get_eq_none r _ hf]
  rfl

/-- When every record extracts the same key, the grouping loop keeps one
bucket holding the whole input in order. -/
theorem foldl_const_key (G : String) (k : PyVal) (h : ∀ r : JobRecord, keyFor G r = k) :
    ∀ (rs : List JobRecord) (l : List JobRecord),
      rs.foldl (fun acc r => insertGrouped acc (keyFor G r) r) [(k, l)] = [(k, l ++ rs)] := by
  intro rs
  induction rs with
  | nil => intro l; simp
  | cons r rs' ih =>
    intro l
    show rs'.foldl _ (insertGrouped [(k, l)] (keyFor G r) r) = _
    rw [h r]
    have hstep : insertGrouped [(k, l)] k r = [(k, l ++ [r])] := by
      simp [insertGrouped]
    rw [hstep, ih, List.append_assoc]
    rfl

theorem groupPairs_const_key (G : String) (k : PyVal)
    (h : ∀ r : JobRecord, keyFor G r = k) :
    ∀ R : List JobRecord, R ≠ [] → groupPairs R G = [(k, R)] := by
  intro R hR
  cases R with
  | nil => exact absurd rfl hR
  | cons r rs =>
    show (r :: rs).foldl (fun acc r => insertGrouped acc (keyFor G r) r) [] = _
    show rs.foldl (fun acc r => insertGrouped acc (keyFor G r) r)
      (insertGrouped [] (keyFor G r) r) = _
    rw [h r]
    rw [show insertGrouped [] k r = [(k, [r])] from rfl]
    rw [foldl_const_key G k h rs [r]]
    rfl

/-- C8, amended: grouping by a field name outside the recognized set
**whose title-cased form is also not one of the row keys** extracts
`"Unknown"` for every record, so the whole input lands in one
`"Unknown"` bucket; but an unrecognized name whose title-cased form is
a row key (such as `"org"`) groups by that row value instead. -/
theorem groupby_unrecognized_amended (G : String)
    (h6 : G ∉ (["label", "status", "workflow", "branch", "runner_type",
      "cost_category"] : List String))
    (hf : pyTitle G ∉ fieldNames) :
    (∀ r : JobRecord, keyFor G r = PyVal.str "Unknown") ∧
    ∀ R : List JobRecord, R ≠ [] →
      groupPairs R G = [(PyVal.str "Unknown", R)] ∧
      groupResults R G = [mkSummary G (PyVal.str "Unknown", R)] := by
  have hk : ∀ r : JobRecord, keyFor G r = PyVal.str "Unknown" := keyFor_unknown G h6 hf
  refine ⟨hk, fun R hR => ?_⟩
  have h1 := groupPairs_const_key G _ hk R hR
  refine ⟨h1, ?_⟩
  rw [groupResults, if_neg hR, h1]
  rfl

/-- Closed instantiation of the amended group-by fallback at the
unrecognized name `"nonsense"`. -/
theorem groupby_unrecognized_amended_witness :
    keyFor "nonsense" r0 = PyVal.str "Unknown" ∧
    groupPairs [r0] "nonsense" = [(PyVal.str "Unknown", [r0])] :=
  ⟨(groupby_unrecognized_amended "nonsense" (by decide) (by decide)).1 r0,
   ((groupby_unrecognized_amended "nonsense" (by decide) (by decide)).2 [r0]
      (List.cons_ne_nil _ _)).1⟩

/-! ### Claims about collection fault tolerance -/

/-- The collection outcome depends on the API only through the
repository enumeration and the two caught per-unit fetchers. -/
theorem analyze_congr (api api' : Api) (org : String) (tl : Option String)
    (db : Int) (gb : String) (sf rf : Option String)
    (h1 : getRepositories api = getRepositories api')
    (h2 : ∀ n b, getWorkflowRuns api n b db = getWorkflowRuns api' n b db)
    (h3 : ∀ n i, getJobsForRun api n i = getJobsForRun api' n i) :
    analyzeRunnerUsage api org tl db gb sf rf =
      analyzeRunnerUsage api' org tl db gb sf rf := by
  have e2 : (fun n b => getWorkflowRuns api n b db) =
      (fun n b => getWorkflowRuns api' n b db) :=
    funext fun n => funext fun b => h2 n b
  have e3 : (fun n i => getJobsForRun api n i) =
      (fun n i => getJobsForRun api' n i) :=
    funext fun n => funext fun i => h3 n i
  simp only [analyzeRunnerUsage, h1, e2, e3]

/-- C7: a fetch failure while listing one repository's workflow runs or
one run's jobs is non-fatal and equivalent to that unit returning no
data — collection over every other unit is unchanged — whereas a fetch
failure while enumerating the organization's repositories is not caught
and aborts the whole collection with that error. -/
theorem collection_fault_tolerance :
    (∀ (api api' : Api) (org : String) (tl : Option String) (db : Int)
        (gb : String) (sf rf : Option String) (X : String) (e : String),
      api'.repoPage = api.repoPage →
      api'.jobsFor = api.jobsFor →
      (∀ n b d, n ≠ X → api'.runsFor n b d = api.runsFor n b d) →
      (∀ b d, api.runsFor X b d = .error e) →
      (∀ b d, api'.runsFor X b d = .ok []) →
      analyzeRunnerUsage api org tl db gb sf rf =
        analyzeRunnerUsage api' org tl db gb sf rf) ∧
    (∀ (api api' : Api) (org : String) (tl : Option String) (db : Int)
        (gb : String) (sf rf : Option String) (X : String) (rid : Int) (e : String),
      api'.repoPage = api.repoPage →
      api'.runsFor = api.runsFor →
      (∀ n i, ¬(n = X ∧ i = rid) → api'.jobsFor n i = api.jobsFor n i) →
      api.jobsFor X rid = .error e →
      api'.jobsFor X rid = .ok [] →
      analyzeRunnerUsage api org tl db gb sf rf =
        analyzeRunnerUsage api' org tl db gb sf rf) ∧
    (∀ (api : Api) (org : String) (tl : Option String) (db : Int)
        (gb : String) (sf rf : Option String) (e : String),
      api.repoPage 1 = .error e →
      analyzeRunnerUsage api org tl db gb sf rf = .error e) := by
  refine ⟨?_, ?_, ?_⟩
  · intro api api' org tl db gb sf rf X e hR hJ hother hfail hempty
    refine analyze_congr api api' org tl db gb sf rf ?_ ?_ ?_
    · rw [getRepositories, getRepositories, hR]
    · intro n b
      by_cases hn : n = X
      · subst hn
        simp [getWorkflowRuns, hfail b db, hempty b db]
      · rw [getWorkflowRuns, getWorkflowRuns, hother n b db hn]
    · intro n i
      rw [getJobsForRun, getJobsForRun, hJ]
  · intro api api' org tl db gb sf rf X rid e hR hRuns hother hfail hempty
    refine analyze_congr api api' org tl db gb sf rf ?_ ?_ ?_
    · rw [getRepositories, getRepositories, hR]
    · intro n b
      rw [getWorkflowRuns, getWorkflowRuns, hRuns]
    · intro n i
      by_cases hni : n = X ∧ i = rid
      · obtain ⟨rfl, rfl⟩ := hni
        simp [getJobsForRun, hfail, hempty]
      · rw [getJobsForRun, getJobsForRun, hother n i hni]
  · intro api org tl db gb sf rf e h
    have hgo : getReposGo api.repoPage 100 1 [] = .error e := by
      show getReposGo api.repoPage (99 + 1) 1 [] = Except.error e
      rw [getReposGo, h]
    rw [analyzeRunnerUsage, getRepositories, hgo]

/-- Closed instantiation of the fault-tolerance theorem at the concrete
APIs. -/
theorem collection_fault_tolerance_witness :
    analyzeRunnerUsage apiRunsFail "myorg" none 30 "none" none none =
      analyzeRunnerUsage apiRunsEmpty "myorg" none 30 "none" none none ∧
    analyzeRunnerUsage apiJobsFail "myorg" none 30 "none" none none =
      analyzeRunnerUsage apiJobsEmpty "myorg" none 30 "none" none none ∧
    analyzeRunnerUsage apiReposFail "myorg" none 30 "none" none none =
      .error "boom" :=
  ⟨collection_fault_tolerance.1 apiRunsFail apiRunsEmpty "myorg" none 30 "none"
      none none "tools-repo" "net" rfl rfl
      (fun n b d hn => by simp [apiRunsFail, apiRunsEmpty, hn])
      (fun b d => by simp [apiRunsFail])
      (fun b d => by simp [apiRunsEmpty]),
   collection_fault_tolerance.2.1 apiJobsFail apiJobsEmpty "myorg" none 30 "none"
      none none "tools-repo" 7 "net" rfl rfl
      (fun n i hni => by simp [apiJobsFail, apiJobsEmpty, hni])
      (by simp [apiJobsFail])
      (by simp [apiJobsEmpty]),
   collection_fault_tolerance.2.2 apiReposFail "myorg" none 30 "none" none none
      "boom" rfl⟩

/-- Closed instantiation of the empty-label claim at the concrete job
fixture, which carries no label list. -/
theorem empty_labels_record_witness :
    (mkRecord "myorg" repo0 run0 job0).runnerLabels = "unknown" ∧
    (mkRecord "myorg" repo0 run0 job0).runnerType = "Unknown" ∧
    (mkRecord "myorg" repo0 run0 job0).costCategory = "Standard" :=
  empty_labels_record "myorg" repo0 run0 job0 rfl

end RunnerAnalytics
